import Mathlib

/-!
Verification of the `waddrmgr` key-maker core (`keymaker.go`).

The Go file is embedded shallowly:

* `hdkeychain` (the BIP32 extended-key library), the encrypted key store
  (`fetchMasterHDKeys`) and the symmetric decryptor are external
  capabilities; they are passed in as explicit parameters, exactly as the
  spec treats them.
* the mutable receiver `*LocalKeyMaker` becomes explicit state passing:
  each operation returns the updated `LocalKeyMaker` record.
* observable effects (store lookups, decryptor invocations, buffer
  erasure, the inner `DeriveCoinTypeKey` call) are recorded in an event
  trace so that claims of the form "performs no store access" are
  statable.
* Go's `uint32` additions are `Nat` additions reduced `% 2^32`.
* a Go nil-pointer dereference or `panic` is modelled by the
  `Outcome.panicked` constructor: it is not an error return.
-/

/-- Error values of the key-maker core.  The parameterless constructors are
the error kinds the file itself produces (`managerError` codes and
`errors.New` messages); `external` stands for an arbitrary error value
produced by an external capability (the store or the hdkeychain library)
and propagated unchanged. -/
inductive Err where
  | coinTypeTooHigh
  | accountNumTooHigh
  | watchingOnly
  | locked
  | keyChainCorrupt
  | masterDerivationFailed
  | masterNeuterFailed
  | coinTypeNeuterFailed
  | accountNeuterFailed
  | external (code : Nat)
deriving DecidableEq, Repr

/-- Observable effects of a key-maker operation, recorded in order. -/
inductive Event where
  | coinTypeCall
  | fetchKeys
  | decryptCall
  | decryptOk
  | eraseBuffer
deriving DecidableEq, Repr

/-- Result of a key-maker operation: a `(private, public)` extended-key
pair, an error return, or a Go runtime panic (which is not an error
return: the caller never sees a value). -/
inductive Outcome (K : Type) where
  | ok (priv pub : K)
  | err (e : Err)
  | panicked (msg : String)
deriving DecidableEq, Repr

/-- The external hdkeychain capability over an opaque extended-key type
`K`: master-key creation from a seed, child derivation, neutering, and
parsing a serialized key.  Each operation is fallible. -/
structure HDKeychain (K : Type) where
  newMaster : List Nat → Nat → Except Err K
  child : K → Nat → Except Err K
  neuter : K → Except Err K
  parse : List Nat → Except Err K

/-- KeyScope from the manager: the `(purpose, coin)` pair.  Both fields
are Go `uint32` values. -/
structure KeyScope where
  purpose : Nat
  coin : Nat
deriving DecidableEq, Repr

/-- Modelled from the spec: the Key-Material Store capability.  The
bucket is summarized by the result `fetchMasterHDKeys` returns on it: an
error, or the optional encrypted private and public master-key records.
(`fetchMasterHDKeys` lives outside this source file.) -/
structure ReadWriteBucket where
  fetchResult : Except Err (Option (List Nat) × Option (List Nat))

/-- The decryptor half of the EncryptorDecryptor capability: `none` means
`Decrypt` returned an error. -/
def Decryptor : Type := List Nat → Option (List Nat)

/-- Modelled from the spec: `HARDENED_START`, the hdkeychain child-index
offset marking hardened derivation (an externally fixed constant). -/
def hardenedKeyStart : Nat := 2 ^ 31

/-- Modelled from the spec: `MAX_COIN_TYPE = 2^31 - 1`, the policy
maximum coin type (the constant is defined elsewhere in the package). -/
def maxCoinType : Nat := 2 ^ 31 - 1

/-- Modelled from the spec: `MAX_ACCOUNT_NUM`, the policy maximum
account number, an externally fixed value (the address manager sets it
to `HardenedKeyStart - 2`; no claim depends on the exact value). -/
def maxAccountNum : Nat := 2 ^ 31 - 2

/-- Go `uint32` addition. -/
def add32 (a b : Nat) : Nat := (a + b) % 2 ^ 32

/-- State of a `LocalKeyMaker` instance: seed, chain parameters (opaque)
and the cached root private key (`nil` pointer = `none`).  The unused
`manager` back-pointer of the Go struct is omitted: no method reads it. -/
structure LocalKeyMaker (K : Type) where
  seed : List Nat
  chainParams : Nat
  rootPrivKey : Option K
deriving DecidableEq, Repr

/-- `NewLocalKeyMaker`: construct from a caller-supplied root key. -/
def newLocalKeyMaker (K : Type) (rootPrivKey : Option K) : LocalKeyMaker K :=
  { seed := [], chainParams := 0, rootPrivKey := rootPrivKey }

/-- `NewLocalKeyMakerFromSeed`: construct from a seed and chain params. -/
def newLocalKeyMakerFromSeed (K : Type) (seed : List Nat) (chainParams : Nat) :
    LocalKeyMaker K :=
  { seed := seed, chainParams := chainParams, rootPrivKey := none }

/-- `LocalKeyMaker.CreateMasterKey`: derive the master key from the
seed, neuter it, and on success cache the private half as the instance
root key.  Each failure maps to its `errors.New` message and leaves the
receiver untouched. -/
def createMasterKey {K : Type} (hd : HDKeychain K) (s : LocalKeyMaker K) :
    LocalKeyMaker K × Outcome K :=
  match hd.newMaster s.seed s.chainParams with
  | .error _ => (s, .err .masterDerivationFailed)
  | .ok rootPrivKey =>
    match hd.neuter rootPrivKey with
    | .error _ => (s, .err .masterNeuterFailed)
    | .ok rootPubKey =>
      ({ s with rootPrivKey := some rootPrivKey }, .ok rootPrivKey rootPubKey)

/-- The tail of `DeriveCoinTypeKey` after the root key is available:
derive the purpose child, the coin-type child, and neuter the latter.
Child-derivation errors propagate unchanged; a neuter failure becomes
the `errors.New` message. -/
def deriveCoinTypeFromRoot {K : Type} (hd : HDKeychain K) (s : LocalKeyMaker K)
    (root : K) (scope : KeyScope) (tr : List Event) :
    LocalKeyMaker K × List Event × Outcome K :=
  match hd.child root (add32 scope.purpose hardenedKeyStart) with
  | .error e => (s, tr, .err e)
  | .ok purposeKey =>
    match hd.child purposeKey (add32 scope.coin hardenedKeyStart) with
    | .error e => (s, tr, .err e)
    | .ok coinTypePrivKey =>
      match hd.neuter coinTypePrivKey with
      | .error _ => (s, tr, .err .coinTypeNeuterFailed)
      | .ok coinTypePubKey => (s, tr, .ok coinTypePrivKey coinTypePubKey)

/-- `LocalKeyMaker.DeriveCoinTypeKey`: bounds check, lazy
fetch/decrypt/parse of the root key when it is not cached (recording
each effect), then the three derivation steps.  `zero.Bytes` runs before
the parse-error check, so `eraseBuffer` is recorded on both post-decrypt
paths.  On a parse failure Go's multi-assignment stores the returned nil
key into `s.rootPrivKey`, i.e. the field becomes `none`. -/
def deriveCoinTypeKey {K : Type} (hd : HDKeychain K) (s : LocalKeyMaker K)
    (scope : KeyScope) (ns : ReadWriteBucket) (dec : Decryptor) :
    LocalKeyMaker K × List Event × Outcome K :=
  if scope.coin > maxCoinType then
    (s, [.coinTypeCall], .err .coinTypeTooHigh)
  else
    match s.rootPrivKey with
    | some root => deriveCoinTypeFromRoot hd s root scope [.coinTypeCall]
    | none =>
      match ns.fetchResult with
      | .error e => (s, [.coinTypeCall, .fetchKeys], .err e)
      | .ok (masterRootPrivEnc, _) =>
        match masterRootPrivEnc with
        | none => (s, [.coinTypeCall, .fetchKeys], .err .watchingOnly)
        | some enc =>
          match dec enc with
          | none =>
            (s, [.coinTypeCall, .fetchKeys, .decryptCall], .err .locked)
          | some serializedMasterRootPriv =>
            match hd.parse serializedMasterRootPriv with
            | .error _ =>
              ({ s with rootPrivKey := none },
               [.coinTypeCall, .fetchKeys, .decryptCall, .decryptOk,
                .eraseBuffer],
               .err .keyChainCorrupt)
            | .ok root =>
              deriveCoinTypeFromRoot hd { s with rootPrivKey := some root }
                root scope
                [.coinTypeCall, .fetchKeys, .decryptCall, .decryptOk,
                 .eraseBuffer]

/-- `LocalKeyMaker.DeriveAccountKey`: bounds check, then the inner
`DeriveCoinTypeKey` call.  The Go code discards the inner call's error
(`coinTypePrivKey, _, err := ...` is immediately overwritten) and calls
`Child` on the returned key unconditionally; when the inner call failed
that key is nil, and the method dereferences a nil pointer. -/
def deriveAccountKey {K : Type} (hd : HDKeychain K) (s : LocalKeyMaker K)
    (scope : KeyScope) (account : Nat) (ns : ReadWriteBucket)
    (dec : Decryptor) : LocalKeyMaker K × List Event × Outcome K :=
  if account > maxAccountNum then
    (s, [], .err .accountNumTooHigh)
  else
    match deriveCoinTypeKey hd s scope ns dec with
    | (s1, tr, .ok coinTypePrivKey _) =>
      match hd.child coinTypePrivKey (add32 account hardenedKeyStart) with
      | .error e => (s1, tr, .err e)
      | .ok acctKeyPriv =>
        match hd.neuter acctKeyPriv with
        | .error _ => (s1, tr, .err .accountNeuterFailed)
        | .ok acctKeyPub => (s1, tr, .ok acctKeyPriv acctKeyPub)
    | (s1, tr, .err _) => (s1, tr, .panicked "nil pointer dereference")
    | (s1, tr, .panicked m) => (s1, tr, .panicked m)

/-- `RemoteKeyMaker` state: the opaque hardware-session configuration. -/
structure RemoteKeyMaker where
  hwConfig : Nat
deriving DecidableEq, Repr

/-- `RemoteKeyMaker.CreateMasterKey`: the body is `panic("implement me")`. -/
def remoteCreateMasterKey (K : Type) (_ : RemoteKeyMaker) : Outcome K :=
  .panicked "implement me"

/-- `RemoteKeyMaker.DeriveCoinTypeKey`: the body is
`panic("implement me")`; no bounds check is reached. -/
def remoteDeriveCoinTypeKey (K : Type) (_ : RemoteKeyMaker) (_ : KeyScope)
    (_ : ReadWriteBucket) (_ : Decryptor) : Outcome K :=
  .panicked "implement me"

/-- `RemoteKeyMaker.DeriveAccountKey`: the body is
`panic("implement me")`; no bounds check is reached. -/
def remoteDeriveAccountKey (K : Type) (_ : RemoteKeyMaker) (_ : KeyScope)
    (_ : Nat) (_ : ReadWriteBucket) (_ : Decryptor) : Outcome K :=
  .panicked "implement me"

/-- A concrete free model of the extended-key capability, used only to
instantiate witnesses: a key remembers how it was built. -/
inductive TK where
  | master (seed : List Nat) (params : Nat)
  | childOf (k : TK) (i : Nat)
  | pubOf (k : TK)
deriving DecidableEq, Repr

/-- The free hdkeychain model over `TK`: every operation succeeds. -/
def toyHD : HDKeychain TK where
  newMaster seed params := .ok (.master seed params)
  child k i := .ok (.childOf k i)
  neuter k := .ok (.pubOf k)
  parse bs := .ok (.master bs 0)

/-- A bucket holding an encrypted private master-key record. -/
def bucketWithPriv (enc : List Nat) : ReadWriteBucket :=
  { fetchResult := .ok (some enc, none) }

/-- A bucket whose store has no encrypted private record. -/
def emptyBucket : ReadWriteBucket :=
  { fetchResult := .ok (none, none) }

/-- A decryptor that always fails. -/
def failingDec : Decryptor := fun _ => none

/-- A decryptor that succeeds and returns the ciphertext unchanged. -/
def identityDec : Decryptor := fun c => some c

/-- Written from the spec's words (for the C6 refinement scenario): the
manual composition `NewMasterFromSeed(S,P).Child(purpose+H).Child(coin+H)
.Child(account+H)`, to be compared with the key `DeriveAccountKey`
returns. -/
def manualAccountKey {K : Type} (hd : HDKeychain K) (seed : List Nat)
    (chainParams : Nat) (scope : KeyScope) (account : Nat) : Except Err K :=
  match hd.newMaster seed chainParams with
  | .error e => .error e
  | .ok m =>
    match hd.child m (add32 scope.purpose hardenedKeyStart) with
    | .error e => .error e
    | .ok a =>
      match hd.child a (add32 scope.coin hardenedKeyStart) with
      | .error e => .error e
      | .ok b => hd.child b (add32 account hardenedKeyStart)

/-- The free hdkeychain model whose master-key derivation always fails
(an out-of-range seed, say); all other operations succeed. -/
def failingMasterHD : HDKeychain TK :=
  { toyHD with newMaster := fun _ _ => .error (.external 0) }

/-! ### Helper lemmas -/

/-- The post-load derivation tail never mutates the maker state. -/
theorem deriveCoinTypeFromRoot_state {K : Type} (hd : HDKeychain K)
    (s : LocalKeyMaker K) (root : K) (scope : KeyScope) (tr : List Event) :
    (deriveCoinTypeFromRoot hd s root scope tr).1 = s := by
  unfold deriveCoinTypeFromRoot
  split
  · rfl
  · split
    · rfl
    · split
      · rfl
      · rfl

/-- The post-load derivation tail records no further events. -/
theorem deriveCoinTypeFromRoot_trace {K : Type} (hd : HDKeychain K)
    (s : LocalKeyMaker K) (root : K) (scope : KeyScope) (tr : List Event) :
    (deriveCoinTypeFromRoot hd s root scope tr).2.1 = tr := by
  unfold deriveCoinTypeFromRoot
  split
  · rfl
  · split
    · rfl
    · split
      · rfl
      · rfl

/-- With a cached root key, `DeriveCoinTypeKey` leaves the state alone
and its trace is the bare entry event: no fetch, no decrypt. -/
theorem deriveCoinTypeKey_cached {K : Type} (hd : HDKeychain K)
    (s : LocalKeyMaker K) (root : K) (scope : KeyScope)
    (ns : ReadWriteBucket) (dec : Decryptor)
    (hr : s.rootPrivKey = some root) (hc : ¬ scope.coin > maxCoinType) :
    (deriveCoinTypeKey hd s scope ns dec).1 = s ∧
    (deriveCoinTypeKey hd s scope ns dec).2.1 = [Event.coinTypeCall] := by
  unfold deriveCoinTypeKey
  rw [if_neg hc, hr]
  exact ⟨deriveCoinTypeFromRoot_state hd s root scope [Event.coinTypeCall],
    deriveCoinTypeFromRoot_trace hd s root scope [Event.coinTypeCall]⟩

/-! ### Claims -/

/-- Claim C2: for every state, scope with `coin > MAX_COIN_TYPE`, bucket
and decryptor, `DeriveCoinTypeKey` returns the `CoinTypeTooHigh` error
and no key pair, performs no store lookup and no decrypt (the trace is
the bare entry event) and leaves the cached root key — indeed the whole
state — unchanged. -/
theorem C2_coin_type_too_high_rejected {K : Type} (hd : HDKeychain K)
    (s : LocalKeyMaker K) (scope : KeyScope) (ns : ReadWriteBucket)
    (dec : Decryptor) (h : scope.coin > maxCoinType) :
    deriveCoinTypeKey hd s scope ns dec =
      (s, [Event.coinTypeCall], Outcome.err Err.coinTypeTooHigh) ∧
    Event.fetchKeys ∉ (deriveCoinTypeKey hd s scope ns dec).2.1 ∧
    Event.decryptCall ∉ (deriveCoinTypeKey hd s scope ns dec).2.1 := by
  unfold deriveCoinTypeKey
  rw [if_pos h]
  refine ⟨rfl, ?_, ?_⟩ <;> simp

/-- Witness for C2 at scope `{purpose 44, coin 2^31}`. -/
theorem C2_coin_type_too_high_rejected_witness :
    (2 ^ 31 : Nat) > maxCoinType ∧
    (deriveCoinTypeKey toyHD (newLocalKeyMakerFromSeed TK [1] 0)
        ⟨44, 2 ^ 31⟩ emptyBucket failingDec =
      (newLocalKeyMakerFromSeed TK [1] 0, [Event.coinTypeCall],
        Outcome.err Err.coinTypeTooHigh) ∧
    Event.fetchKeys ∉ (deriveCoinTypeKey toyHD
        (newLocalKeyMakerFromSeed TK [1] 0) ⟨44, 2 ^ 31⟩ emptyBucket
        failingDec).2.1 ∧
    Event.decryptCall ∉ (deriveCoinTypeKey toyHD
        (newLocalKeyMakerFromSeed TK [1] 0) ⟨44, 2 ^ 31⟩ emptyBucket
        failingDec).2.1) :=
  ⟨by decide,
   C2_coin_type_too_high_rejected toyHD (newLocalKeyMakerFromSeed TK [1] 0)
     ⟨44, 2 ^ 31⟩ emptyBucket failingDec (by decide)⟩

/-- Claim C3: for every state, scope, bucket and decryptor, an account
above `MAX_ACCOUNT_NUM` makes `DeriveAccountKey` return the
`AccountNumTooHigh` error with an empty trace: `DeriveCoinTypeKey` is
never called, so no coin-type derivation, store access or decryption is
attempted, and the state is unchanged. -/
theorem C3_account_num_too_high_rejected {K : Type} (hd : HDKeychain K)
    (s : LocalKeyMaker K) (scope : KeyScope) (account : Nat)
    (ns : ReadWriteBucket) (dec : Decryptor) (h : account > maxAccountNum) :
    deriveAccountKey hd s scope account ns dec =
      (s, [], Outcome.err Err.accountNumTooHigh) ∧
    Event.coinTypeCall ∉ (deriveAccountKey hd s scope account ns dec).2.1 := by
  unfold deriveAccountKey
  rw [if_pos h]
  exact ⟨rfl, by simp⟩

/-- Witness for C3 at account `2^31 - 1`. -/
theorem C3_account_num_too_high_rejected_witness :
    (2 ^ 31 - 1 : Nat) > maxAccountNum ∧
    (deriveAccountKey toyHD (newLocalKeyMakerFromSeed TK [1] 0) ⟨44, 0⟩
        (2 ^ 31 - 1) emptyBucket failingDec =
      (newLocalKeyMakerFromSeed TK [1] 0, [],
        Outcome.err Err.accountNumTooHigh) ∧
    Event.coinTypeCall ∉ (deriveAccountKey toyHD
        (newLocalKeyMakerFromSeed TK [1] 0) ⟨44, 0⟩ (2 ^ 31 - 1)
        emptyBucket failingDec).2.1) :=
  ⟨by decide,
   C3_account_num_too_high_rejected toyHD (newLocalKeyMakerFromSeed TK [1] 0)
     ⟨44, 0⟩ (2 ^ 31 - 1) emptyBucket failingDec (by decide)⟩

/-- Claim C1 (evaluation at the failing input): `DeriveAccountKey`
discards the error of its inner `DeriveCoinTypeKey` call, so when that
call fails — here with an out-of-bounds coin type — the method
dereferences the nil coin-type key and panics instead of returning the
error: no error value is ever returned to the caller. -/
theorem C1_inner_error_not_propagated :
    deriveAccountKey toyHD (newLocalKeyMakerFromSeed TK [1] 0)
        ⟨44, 2 ^ 31⟩ 0 emptyBucket failingDec =
      (newLocalKeyMakerFromSeed TK [1] 0, [Event.coinTypeCall],
        Outcome.panicked "nil pointer dereference") ∧
    ∀ e : Err, (deriveAccountKey toyHD (newLocalKeyMakerFromSeed TK [1] 0)
        ⟨44, 2 ^ 31⟩ 0 emptyBucket failingDec).2.2 ≠ Outcome.err e := by
  refine ⟨by decide, ?_⟩
  intro e h
  rw [show (deriveAccountKey toyHD (newLocalKeyMakerFromSeed TK [1] 0)
      ⟨44, 2 ^ 31⟩ 0 emptyBucket failingDec).2.2 =
      Outcome.panicked "nil pointer dereference" from by decide] at h
  exact Outcome.noConfusion h

/-- Claim C9, counterexample: the remote maker does not perform the
bounds check — on a scope with `coin = 2^31 > MAX_COIN_TYPE` its
`DeriveCoinTypeKey` panics with "implement me" (aborting the process)
instead of returning the `CoinTypeTooHigh` error, and none of its
operations returns a `NotImplemented`-style error value. -/
theorem C9_remote_panics_counterexample :
    remoteDeriveCoinTypeKey TK ⟨0⟩ ⟨44, 2 ^ 31⟩ emptyBucket failingDec =
      Outcome.panicked "implement me" ∧
    remoteDeriveCoinTypeKey TK ⟨0⟩ ⟨44, 2 ^ 31⟩ emptyBucket failingDec ≠
      Outcome.err Err.coinTypeTooHigh ∧
    remoteDeriveAccountKey TK ⟨0⟩ ⟨44, 0⟩ (2 ^ 31 - 1) emptyBucket
        failingDec ≠ Outcome.err Err.accountNumTooHigh := by
  refine ⟨rfl, ?_, ?_⟩ <;> intro h <;> exact Outcome.noConfusion h

/-- Claim C9 as amended: all three `RemoteKeyMaker` operations are
unimplemented stubs — for every input they panic with "implement me",
aborting rather than performing bounds checks or returning any error
value (`NotImplemented` or otherwise). -/
theorem C9_remote_stubs_panic (K : Type) (r : RemoteKeyMaker)
    (scope : KeyScope) (account : Nat) (ns : ReadWriteBucket)
    (dec : Decryptor) :
    remoteCreateMasterKey K r = Outcome.panicked "implement me" ∧
    remoteDeriveCoinTypeKey K r scope ns dec =
      Outcome.panicked "implement me" ∧
    remoteDeriveAccountKey K r scope account ns dec =
      Outcome.panicked "implement me" :=
  ⟨rfl, rfl, rfl⟩

/-- Claim C4: with no cached root key and an in-bounds coin type, if the
store lookup succeeds but holds no encrypted private record,
`DeriveCoinTypeKey` returns the `WatchingOnly` error, the state is
unchanged, and the decryptor is never invoked (the trace holds no
decrypt event). -/
theorem C4_watching_only {K : Type} (hd : HDKeychain K)
    (s : LocalKeyMaker K) (scope : KeyScope) (ns : ReadWriteBucket)
    (dec : Decryptor) (q : Option (List Nat))
    (h1 : s.rootPrivKey = none) (h2 : scope.coin ≤ maxCoinType)
    (h3 : ns.fetchResult = .ok (none, q)) :
    deriveCoinTypeKey hd s scope ns dec =
      (s, [Event.coinTypeCall, Event.fetchKeys],
        Outcome.err Err.watchingOnly) ∧
    Event.decryptCall ∉ (deriveCoinTypeKey hd s scope ns dec).2.1 := by
  have hc : ¬ scope.coin > maxCoinType := not_lt.mpr h2
  unfold deriveCoinTypeKey
  rw [if_neg hc, h1, h3]
  exact ⟨rfl, by simp⟩

/-- Witness for C4: fresh maker, empty store. -/
theorem C4_watching_only_witness :
    (newLocalKeyMakerFromSeed TK [1] 0).rootPrivKey = none ∧
    (0 : Nat) ≤ maxCoinType ∧
    emptyBucket.fetchResult = .ok (none, none) ∧
    (deriveCoinTypeKey toyHD (newLocalKeyMakerFromSeed TK [1] 0) ⟨44, 0⟩
        emptyBucket failingDec =
      (newLocalKeyMakerFromSeed TK [1] 0,
        [Event.coinTypeCall, Event.fetchKeys],
        Outcome.err Err.watchingOnly) ∧
    Event.decryptCall ∉ (deriveCoinTypeKey toyHD
        (newLocalKeyMakerFromSeed TK [1] 0) ⟨44, 0⟩ emptyBucket
        failingDec).2.1) :=
  ⟨rfl, by decide, rfl,
   C4_watching_only toyHD (newLocalKeyMakerFromSeed TK [1] 0) ⟨44, 0⟩
     emptyBucket failingDec none rfl (by decide) rfl⟩

/-- Claim C5: with no cached root key, an in-bounds coin type, a stored
encrypted private record, and a failing decryptor, `DeriveCoinTypeKey`
returns the `Locked` error with the state unchanged (the cached-root-key
field is still `none`), and a later call on that same state with a
working decryptor — one whose decrypt, parse, child and neuter steps
succeed — returns the derived key pair. -/
theorem C5_locked_cache_still_absent {K : Type} (hd : HDKeychain K)
    (s : LocalKeyMaker K) (scope : KeyScope) (ns : ReadWriteBucket)
    (dec : Decryptor) (enc : List Nat) (q : Option (List Nat))
    (h1 : s.rootPrivKey = none) (h2 : scope.coin ≤ maxCoinType)
    (h3 : ns.fetchResult = .ok (some enc, q)) (h4 : dec enc = none) :
    (deriveCoinTypeKey hd s scope ns dec =
      (s, [Event.coinTypeCall, Event.fetchKeys, Event.decryptCall],
        Outcome.err Err.locked)) ∧
    ∀ (dec2 : Decryptor) (plain : List Nat) (root k1 k2 pub : K),
      dec2 enc = some plain → hd.parse plain = .ok root →
      hd.child root (add32 scope.purpose hardenedKeyStart) = .ok k1 →
      hd.child k1 (add32 scope.coin hardenedKeyStart) = .ok k2 →
      hd.neuter k2 = .ok pub →
      (deriveCoinTypeKey hd s scope ns dec2).2.2 = Outcome.ok k2 pub := by
  have hc : ¬ scope.coin > maxCoinType := not_lt.mpr h2
  constructor
  · unfold deriveCoinTypeKey
    rw [if_neg hc, h1, h3]
    show (match dec enc with
      | none => (s, [Event.coinTypeCall, Event.fetchKeys,
          Event.decryptCall], Outcome.err Err.locked)
      | some serializedMasterRootPriv =>
        match hd.parse serializedMasterRootPriv with
        | .error _ => ({ s with rootPrivKey := none },
            [Event.coinTypeCall, Event.fetchKeys, Event.decryptCall,
             Event.decryptOk, Event.eraseBuffer],
            Outcome.err Err.keyChainCorrupt)
        | .ok root => deriveCoinTypeFromRoot hd
            { s with rootPrivKey := some root } root scope
            [Event.coinTypeCall, Event.fetchKeys, Event.decryptCall,
             Event.decryptOk, Event.eraseBuffer]) = _
    rw [h4]
  · intro dec2 plain root k1 k2 pub hdec hparse hch1 hch2 hneu
    unfold deriveCoinTypeKey
    rw [if_neg hc, h1, h3]
    show (match dec2 enc with
      | none => (s, [Event.coinTypeCall, Event.fetchKeys,
          Event.decryptCall], Outcome.err Err.locked)
      | some serializedMasterRootPriv =>
        match hd.parse serializedMasterRootPriv with
        | .error _ => ({ s with rootPrivKey := none },
            [Event.coinTypeCall, Event.fetchKeys, Event.decryptCall,
             Event.decryptOk, Event.eraseBuffer],
            Outcome.err Err.keyChainCorrupt)
        | .ok root => deriveCoinTypeFromRoot hd
            { s with rootPrivKey := some root } root scope
            [Event.coinTypeCall, Event.fetchKeys, Event.decryptCall,
             Event.decryptOk, Event.eraseBuffer]).2.2 = _
    rw [hdec]
    dsimp only
    rw [hparse]
    dsimp only
    unfold deriveCoinTypeFromRoot
    rw [hch1]
    dsimp only
    rw [hch2]
    dsimp only
    rw [hneu]

/-- Witness for C5: a failing decryptor yields `Locked` and leaves the
cache empty; retrying on the same state with the identity decryptor
derives the coin-type pair. -/
theorem C5_locked_cache_still_absent_witness :
    failingDec [7] = none ∧
    (deriveCoinTypeKey toyHD (newLocalKeyMakerFromSeed TK [1] 0) ⟨44, 0⟩
        (bucketWithPriv [7]) failingDec =
      (newLocalKeyMakerFromSeed TK [1] 0,
        [Event.coinTypeCall, Event.fetchKeys, Event.decryptCall],
        Outcome.err Err.locked)) ∧
    (deriveCoinTypeKey toyHD (newLocalKeyMakerFromSeed TK [1] 0) ⟨44, 0⟩
        (bucketWithPriv [7]) identityDec).2.2 =
      Outcome.ok
        (TK.childOf (TK.childOf (TK.master [7] 0)
          (add32 44 hardenedKeyStart)) (add32 0 hardenedKeyStart))
        (TK.pubOf (TK.childOf (TK.childOf (TK.master [7] 0)
          (add32 44 hardenedKeyStart)) (add32 0 hardenedKeyStart))) :=
  ⟨rfl,
   (C5_locked_cache_still_absent toyHD (newLocalKeyMakerFromSeed TK [1] 0)
      ⟨44, 0⟩ (bucketWithPriv [7]) failingDec [7] none rfl (by decide)
      rfl rfl).1,
   (C5_locked_cache_still_absent toyHD (newLocalKeyMakerFromSeed TK [1] 0)
      ⟨44, 0⟩ (bucketWithPriv [7]) failingDec [7] none rfl (by decide)
      rfl rfl).2 identityDec [7] (TK.master [7] 0)
     (TK.childOf (TK.master [7] 0) (add32 44 hardenedKeyStart))
     (TK.childOf (TK.childOf (TK.master [7] 0)
       (add32 44 hardenedKeyStart)) (add32 0 hardenedKeyStart))
     (TK.pubOf (TK.childOf (TK.childOf (TK.master [7] 0)
       (add32 44 hardenedKeyStart)) (add32 0 hardenedKeyStart)))
     rfl rfl rfl rfl rfl⟩

/-- The trace of `DeriveCoinTypeKey` is one of four prefixes of the full
lazy-load effect sequence: the bare entry event, entry + fetch, entry +
fetch + failed decrypt, or the full fetch/decrypt/parse/erase run. -/
theorem deriveCoinTypeKey_trace_cases {K : Type} (hd : HDKeychain K)
    (s : LocalKeyMaker K) (scope : KeyScope) (ns : ReadWriteBucket)
    (dec : Decryptor) :
    (deriveCoinTypeKey hd s scope ns dec).2.1 = [Event.coinTypeCall] ∨
    (deriveCoinTypeKey hd s scope ns dec).2.1 =
      [Event.coinTypeCall, Event.fetchKeys] ∨
    (deriveCoinTypeKey hd s scope ns dec).2.1 =
      [Event.coinTypeCall, Event.fetchKeys, Event.decryptCall] ∨
    (deriveCoinTypeKey hd s scope ns dec).2.1 =
      [Event.coinTypeCall, Event.fetchKeys, Event.decryptCall,
       Event.decryptOk, Event.eraseBuffer] := by
  unfold deriveCoinTypeKey
  split
  · exact Or.inl rfl
  · split
    · exact Or.inl (deriveCoinTypeFromRoot_trace _ _ _ _ _)
    · split
      · exact Or.inr (Or.inl rfl)
      · split
        · exact Or.inr (Or.inl rfl)
        · split
          · exact Or.inr (Or.inr (Or.inl rfl))
          · split
            · exact Or.inr (Or.inr (Or.inr rfl))
            · exact Or.inr (Or.inr (Or.inr
                (deriveCoinTypeFromRoot_trace _ _ _ _ _)))

/-- Claim C8: whenever a `DeriveCoinTypeKey` run contains a successful
decrypt of the stored root key, its trace also contains the buffer
erasure — `zero.Bytes` runs before the parse-error check, so both the
parse-success and the parse-failure (`KeyChainCorrupt`) exits erase the
plaintext before returning. -/
theorem C8_plaintext_erased_after_decrypt {K : Type} (hd : HDKeychain K)
    (s : LocalKeyMaker K) (scope : KeyScope) (ns : ReadWriteBucket)
    (dec : Decryptor)
    (h : Event.decryptOk ∈ (deriveCoinTypeKey hd s scope ns dec).2.1) :
    Event.eraseBuffer ∈ (deriveCoinTypeKey hd s scope ns dec).2.1 := by
  rcases deriveCoinTypeKey_trace_cases hd s scope ns dec with
    ht | ht | ht | ht <;> rw [ht] at h ⊢
  · simp at h
  · simp at h
  · simp at h
  · simp

/-- Witness for C8: the full lazy-load success run both decrypts and
erases. -/
theorem C8_plaintext_erased_after_decrypt_witness :
    Event.decryptOk ∈ (deriveCoinTypeKey toyHD
      (newLocalKeyMakerFromSeed TK [1] 0) ⟨44, 0⟩ (bucketWithPriv [7])
      identityDec).2.1 ∧
    Event.eraseBuffer ∈ (deriveCoinTypeKey toyHD
      (newLocalKeyMakerFromSeed TK [1] 0) ⟨44, 0⟩ (bucketWithPriv [7])
      identityDec).2.1 :=
  ⟨by decide,
   C8_plaintext_erased_after_decrypt toyHD
     (newLocalKeyMakerFromSeed TK [1] 0) ⟨44, 0⟩ (bucketWithPriv [7])
     identityDec (by decide)⟩

/-- Claim C10: when `CreateMasterKey` returns an error — the master-key
derivation from the seed failed, or neutering it failed — the whole
instance state, and in particular the cached root private key field, is
exactly what it was before the call, so a maker constructed from an
existing root key still holds that key. -/
theorem C10_create_master_error_preserves_state {K : Type}
    (hd : HDKeychain K) (s : LocalKeyMaker K) (e : Err)
    (h : (createMasterKey hd s).2 = Outcome.err e) :
    (createMasterKey hd s).1 = s ∧
    ∀ root : K, s.rootPrivKey = some root →
      (createMasterKey hd s).1.rootPrivKey = some root := by
  have hstate : (createMasterKey hd s).1 = s := by
    unfold createMasterKey at h ⊢
    cases hm : hd.newMaster s.seed s.chainParams with
    | error e2 => rfl
    | ok rp =>
      rw [hm] at h
      dsimp only at h ⊢
      cases hn : hd.neuter rp with
      | error e2 => rfl
      | ok rpb =>
        rw [hn] at h
        simp at h
  exact ⟨hstate, fun root hr => by rw [hstate]; exact hr⟩

/-- Witness for C10: a maker holding a root key keeps it when the
master-key derivation fails. -/
theorem C10_create_master_error_preserves_state_witness :
    (createMasterKey failingMasterHD
        (newLocalKeyMaker TK (some (TK.master [9] 0)))).2 =
      Outcome.err Err.masterDerivationFailed ∧
    ((createMasterKey failingMasterHD
        (newLocalKeyMaker TK (some (TK.master [9] 0)))).1 =
      newLocalKeyMaker TK (some (TK.master [9] 0)) ∧
    (createMasterKey failingMasterHD
        (newLocalKeyMaker TK (some (TK.master [9] 0)))).1.rootPrivKey =
      some (TK.master [9] 0)) :=
  ⟨rfl,
   (C10_create_master_error_preserves_state failingMasterHD
      (newLocalKeyMaker TK (some (TK.master [9] 0)))
      Err.masterDerivationFailed rfl).1,
   (C10_create_master_error_preserves_state failingMasterHD
      (newLocalKeyMaker TK (some (TK.master [9] 0)))
      Err.masterDerivationFailed rfl).2 (TK.master [9] 0) rfl⟩

/-- Claim C6: for a maker built from seed `S` and chain parameters `P`
on which `CreateMasterKey` succeeded, and for every in-bounds scope and
account on which the child-derivation and neuter steps succeed,
`DeriveAccountKey` returns exactly the private key obtained by manually
composing `NewMaster(S,P).Child(purpose+H).Child(coin+H).Child(account+H)`. -/
theorem C6_account_key_matches_manual_composition {K : Type}
    (hd : HDKeychain K) (seed : List Nat) (chainParams : Nat)
    (scope : KeyScope) (account : Nat) (ns : ReadWriteBucket)
    (dec : Decryptor) (rp rpb k1 k2 k2p k3 k3p : K)
    (hM : hd.newMaster seed chainParams = .ok rp)
    (hN : hd.neuter rp = .ok rpb)
    (hA : account ≤ maxAccountNum) (hC : scope.coin ≤ maxCoinType)
    (h1 : hd.child rp (add32 scope.purpose hardenedKeyStart) = .ok k1)
    (h2 : hd.child k1 (add32 scope.coin hardenedKeyStart) = .ok k2)
    (h2n : hd.neuter k2 = .ok k2p)
    (h3 : hd.child k2 (add32 account hardenedKeyStart) = .ok k3)
    (h3n : hd.neuter k3 = .ok k3p) :
    createMasterKey hd (newLocalKeyMakerFromSeed K seed chainParams) =
      ({ seed := seed, chainParams := chainParams, rootPrivKey := some rp },
        Outcome.ok rp rpb) ∧
    (deriveAccountKey hd
        (createMasterKey hd (newLocalKeyMakerFromSeed K seed chainParams)).1
        scope account ns dec).2.2 = Outcome.ok k3 k3p ∧
    manualAccountKey hd seed chainParams scope account = .ok k3 := by
  have hcm : createMasterKey hd (newLocalKeyMakerFromSeed K seed chainParams) =
      ({ seed := seed, chainParams := chainParams, rootPrivKey := some rp },
        Outcome.ok rp rpb) := by
    unfold createMasterKey
    dsimp only [newLocalKeyMakerFromSeed]
    rw [hM]
    dsimp only
    rw [hN]
  have hct : deriveCoinTypeKey hd
      { seed := seed, chainParams := chainParams, rootPrivKey := some rp }
      scope ns dec =
      ({ seed := seed, chainParams := chainParams, rootPrivKey := some rp },
        [Event.coinTypeCall], Outcome.ok k2 k2p) := by
    unfold deriveCoinTypeKey
    rw [if_neg (not_lt.mpr hC)]
    dsimp only
    unfold deriveCoinTypeFromRoot
    rw [h1]
    dsimp only
    rw [h2]
    dsimp only
    rw [h2n]
  refine ⟨hcm, ?_, ?_⟩
  · rw [hcm]
    unfold deriveAccountKey
    rw [if_neg (not_lt.mpr hA)]
    dsimp only
    rw [hct]
    dsimp only
    rw [h3]
    dsimp only
    rw [h3n]
  · unfold manualAccountKey
    rw [hM]
    dsimp only
    rw [h1]
    dsimp only
    rw [h2]
    dsimp only
    exact h3

/-- Witness for C6 at seed `[1,2,3]`, chain parameters `7`, scope
`{purpose 44, coin 0}`, account `0`, in the free key model. -/
theorem C6_account_key_matches_manual_composition_witness :
    createMasterKey toyHD (newLocalKeyMakerFromSeed TK [1, 2, 3] 7) =
      ({ seed := [1, 2, 3], chainParams := 7,
         rootPrivKey := some (TK.master [1, 2, 3] 7) },
        Outcome.ok (TK.master [1, 2, 3] 7)
          (TK.pubOf (TK.master [1, 2, 3] 7))) ∧
    (deriveAccountKey toyHD
        (createMasterKey toyHD
          (newLocalKeyMakerFromSeed TK [1, 2, 3] 7)).1
        ⟨44, 0⟩ 0 emptyBucket failingDec).2.2 =
      Outcome.ok
        (TK.childOf (TK.childOf (TK.childOf (TK.master [1, 2, 3] 7)
          (add32 44 hardenedKeyStart)) (add32 0 hardenedKeyStart))
          (add32 0 hardenedKeyStart))
        (TK.pubOf (TK.childOf (TK.childOf (TK.childOf
          (TK.master [1, 2, 3] 7) (add32 44 hardenedKeyStart))
          (add32 0 hardenedKeyStart)) (add32 0 hardenedKeyStart))) ∧
    manualAccountKey toyHD [1, 2, 3] 7 ⟨44, 0⟩ 0 =
      .ok (TK.childOf (TK.childOf (TK.childOf (TK.master [1, 2, 3] 7)
        (add32 44 hardenedKeyStart)) (add32 0 hardenedKeyStart))
        (add32 0 hardenedKeyStart)) :=
  C6_account_key_matches_manual_composition toyHD [1, 2, 3] 7 ⟨44, 0⟩ 0
    emptyBucket failingDec (TK.master [1, 2, 3] 7)
    (TK.pubOf (TK.master [1, 2, 3] 7))
    (TK.childOf (TK.master [1, 2, 3] 7) (add32 44 hardenedKeyStart))
    (TK.childOf (TK.childOf (TK.master [1, 2, 3] 7)
      (add32 44 hardenedKeyStart)) (add32 0 hardenedKeyStart))
    (TK.pubOf (TK.childOf (TK.childOf (TK.master [1, 2, 3] 7)
      (add32 44 hardenedKeyStart)) (add32 0 hardenedKeyStart)))
    (TK.childOf (TK.childOf (TK.childOf (TK.master [1, 2, 3] 7)
      (add32 44 hardenedKeyStart)) (add32 0 hardenedKeyStart))
      (add32 0 hardenedKeyStart))
    (TK.pubOf (TK.childOf (TK.childOf (TK.childOf (TK.master [1, 2, 3] 7)
      (add32 44 hardenedKeyStart)) (add32 0 hardenedKeyStart))
      (add32 0 hardenedKeyStart)))
    rfl rfl (by decide) (by decide) rfl rfl rfl rfl rfl

/-- `CreateMasterKey` either leaves the state alone (failure) or sets
the cached root key (success); it never clears a set key. -/
theorem createMasterKey_state {K : Type} (hd : HDKeychain K)
    (s : LocalKeyMaker K) :
    (createMasterKey hd s).1 = s ∨
    ∃ root : K, (createMasterKey hd s).1 =
      { s with rootPrivKey := some root } := by
  unfold createMasterKey
  cases hm : hd.newMaster s.seed s.chainParams with
  | error e => exact Or.inl rfl
  | ok rp =>
    dsimp only
    cases hn : hd.neuter rp with
    | error e => exact Or.inl rfl
    | ok rpb => exact Or.inr ⟨rp, rfl⟩

/-- With a cached root key, `DeriveCoinTypeKey` never mutates the
state, whether or not the bounds check or a derivation step fails. -/
theorem deriveCoinTypeKey_state_some {K : Type} (hd : HDKeychain K)
    (s : LocalKeyMaker K) (scope : KeyScope) (ns : ReadWriteBucket)
    (dec : Decryptor) (root : K) (hr : s.rootPrivKey = some root) :
    (deriveCoinTypeKey hd s scope ns dec).1 = s := by
  unfold deriveCoinTypeKey
  split
  · rfl
  · rw [hr]
    dsimp only
    exact deriveCoinTypeFromRoot_state hd s root scope [Event.coinTypeCall]

/-- The state `DeriveAccountKey` returns is the input state (bounds
failure) or whatever the inner `DeriveCoinTypeKey` call produced. -/
theorem deriveAccountKey_state {K : Type} (hd : HDKeychain K)
    (s : LocalKeyMaker K) (scope : KeyScope) (account : Nat)
    (ns : ReadWriteBucket) (dec : Decryptor) :
    (deriveAccountKey hd s scope account ns dec).1 = s ∨
    (deriveAccountKey hd s scope account ns dec).1 =
      (deriveCoinTypeKey hd s scope ns dec).1 := by
  unfold deriveAccountKey
  by_cases ha : account > maxAccountNum
  · rw [if_pos ha]
    exact Or.inl rfl
  · rw [if_neg ha]
    rcases hct : deriveCoinTypeKey hd s scope ns dec with ⟨s1, tr, oc⟩
    dsimp only
    cases oc with
    | ok kp kpub =>
      dsimp only
      cases hch : hd.child kp (add32 account hardenedKeyStart) with
      | error e => exact Or.inr rfl
      | ok acct =>
        dsimp only
        cases hne : hd.neuter acct with
        | error e => exact Or.inr rfl
        | ok acctPub => exact Or.inr rfl
    | err e => exact Or.inr rfl
    | panicked m => exact Or.inr rfl

/-- A successful `DeriveCoinTypeKey` run from a maker with no cached
root key is exactly the full lazy-load run: its trace is the
fetch/decrypt/parse/erase sequence and it caches the parsed root key. -/
theorem deriveCoinTypeKey_none_ok {K : Type} (hd : HDKeychain K)
    (s : LocalKeyMaker K) (scope : KeyScope) (ns : ReadWriteBucket)
    (dec : Decryptor) (p q : K) (h0 : s.rootPrivKey = none)
    (h : (deriveCoinTypeKey hd s scope ns dec).2.2 = Outcome.ok p q) :
    (deriveCoinTypeKey hd s scope ns dec).2.1 =
      [Event.coinTypeCall, Event.fetchKeys, Event.decryptCall,
       Event.decryptOk, Event.eraseBuffer] ∧
    ∃ root : K,
      (deriveCoinTypeKey hd s scope ns dec).1.rootPrivKey = some root := by
  by_cases hcc : scope.coin > maxCoinType
  · unfold deriveCoinTypeKey at h
    rw [if_pos hcc] at h
    simp at h
  · unfold deriveCoinTypeKey at h ⊢
    rw [if_neg hcc] at h ⊢
    rw [h0] at h ⊢
    dsimp only at h ⊢
    cases hf : ns.fetchResult with
    | error e =>
      rw [hf] at h
      simp at h
    | ok pr =>
      obtain ⟨penc, q2⟩ := pr
      rw [hf] at h
      dsimp only at h ⊢
      cases penc with
      | none => simp at h
      | some enc =>
        dsimp only at h ⊢
        cases hde : dec enc with
        | none =>
          rw [hde] at h
          simp at h
        | some plain =>
          rw [hde] at h
          dsimp only at h ⊢
          cases hp : hd.parse plain with
          | error e2 =>
            rw [hp] at h
            simp at h
          | ok root =>
            dsimp only
            refine ⟨deriveCoinTypeFromRoot_trace _ _ _ _ _, root, ?_⟩
            rw [deriveCoinTypeFromRoot_state]

/-- Claim C7: once the cached root private key is set no operation of
the instance clears it (all three operations keep the field set); every
`DeriveCoinTypeKey` call on a maker with a cached key and an in-bounds
scope touches neither the store nor the decryptor and leaves the state
alone; and two `DeriveCoinTypeKey` calls on a maker that starts with no
cached key, the first of which succeeds, perform exactly one store
lookup and one decrypt in total — the second call reuses the cache. -/
theorem C7_cache_monotone_lazy_idempotent {K : Type} (hd : HDKeychain K) :
    (∀ (s : LocalKeyMaker K) (scope : KeyScope) (account : Nat)
       (ns : ReadWriteBucket) (dec : Decryptor),
       s.rootPrivKey.isSome = true →
       ((createMasterKey hd s).1.rootPrivKey.isSome = true ∧
        (deriveCoinTypeKey hd s scope ns dec).1.rootPrivKey.isSome = true ∧
        (deriveAccountKey hd s scope account ns
          dec).1.rootPrivKey.isSome = true)) ∧
    (∀ (s : LocalKeyMaker K) (root : K) (scope : KeyScope)
       (ns : ReadWriteBucket) (dec : Decryptor),
       s.rootPrivKey = some root → scope.coin ≤ maxCoinType →
       (deriveCoinTypeKey hd s scope ns dec).1 = s ∧
       (deriveCoinTypeKey hd s scope ns dec).2.1 = [Event.coinTypeCall]) ∧
    (∀ (s : LocalKeyMaker K) (scope1 scope2 : KeyScope)
       (ns1 ns2 : ReadWriteBucket) (dec1 dec2 : Decryptor) (p q : K),
       s.rootPrivKey = none →
       (deriveCoinTypeKey hd s scope1 ns1 dec1).2.2 = Outcome.ok p q →
       scope2.coin ≤ maxCoinType →
       ((deriveCoinTypeKey hd s scope1 ns1 dec1).2.1 ++
         (deriveCoinTypeKey hd (deriveCoinTypeKey hd s scope1 ns1 dec1).1
           scope2 ns2 dec2).2.1).count Event.fetchKeys = 1 ∧
       ((deriveCoinTypeKey hd s scope1 ns1 dec1).2.1 ++
         (deriveCoinTypeKey hd (deriveCoinTypeKey hd s scope1 ns1 dec1).1
           scope2 ns2 dec2).2.1).count Event.decryptCall = 1) := by
  refine ⟨?_, ?_, ?_⟩
  · intro s scope account ns dec hsome
    obtain ⟨root, hr⟩ := Option.isSome_iff_exists.mp hsome
    refine ⟨?_, ?_, ?_⟩
    · rcases createMasterKey_state hd s with h1 | ⟨r2, h1⟩ <;> rw [h1]
      · rw [hr]
        rfl
      · rfl
    · rw [deriveCoinTypeKey_state_some hd s scope ns dec root hr, hr]
      rfl
    · rcases deriveAccountKey_state hd s scope account ns dec with h1 | h1 <;>
        rw [h1]
      · rw [hr]
        rfl
      · rw [deriveCoinTypeKey_state_some hd s scope ns dec root hr, hr]
        rfl
  · intro s root scope ns dec hr hc
    exact deriveCoinTypeKey_cached hd s root scope ns dec hr (not_lt.mpr hc)
  · intro s scope1 scope2 ns1 ns2 dec1 dec2 p q h0 hok hc2
    obtain ⟨htr1, root, hsome⟩ :=
      deriveCoinTypeKey_none_ok hd s scope1 ns1 dec1 p q h0 hok
    have h2 := deriveCoinTypeKey_cached hd
      (deriveCoinTypeKey hd s scope1 ns1 dec1).1 root scope2 ns2 dec2
      hsome (not_lt.mpr hc2)
    rw [htr1, h2.2]
    exact ⟨by decide, by decide⟩

/-- Witness for C7: a maker holding a root key keeps it under all three
operations and performs no lazy load; a fresh maker whose first call
succeeds fetches and decrypts exactly once over two calls. -/
theorem C7_cache_monotone_lazy_idempotent_witness :
    ((createMasterKey toyHD (newLocalKeyMaker TK
        (some (TK.master [9] 0)))).1.rootPrivKey.isSome = true ∧
     (deriveCoinTypeKey toyHD (newLocalKeyMaker TK
        (some (TK.master [9] 0))) ⟨44, 0⟩ emptyBucket
        failingDec).1.rootPrivKey.isSome = true ∧
     (deriveAccountKey toyHD (newLocalKeyMaker TK
        (some (TK.master [9] 0))) ⟨44, 0⟩ 0 emptyBucket
        failingDec).1.rootPrivKey.isSome = true) ∧
    ((deriveCoinTypeKey toyHD (newLocalKeyMaker TK
        (some (TK.master [9] 0))) ⟨44, 0⟩ emptyBucket failingDec).1 =
      newLocalKeyMaker TK (some (TK.master [9] 0)) ∧
     (deriveCoinTypeKey toyHD (newLocalKeyMaker TK
        (some (TK.master [9] 0))) ⟨44, 0⟩ emptyBucket failingDec).2.1 =
      [Event.coinTypeCall]) ∧
    (((deriveCoinTypeKey toyHD (newLocalKeyMakerFromSeed TK [1] 0)
        ⟨44, 0⟩ (bucketWithPriv [7]) identityDec).2.1 ++
      (deriveCoinTypeKey toyHD (deriveCoinTypeKey toyHD
          (newLocalKeyMakerFromSeed TK [1] 0) ⟨44, 0⟩ (bucketWithPriv [7])
          identityDec).1 ⟨44, 0⟩ emptyBucket
        failingDec).2.1).count Event.fetchKeys = 1 ∧
     ((deriveCoinTypeKey toyHD (newLocalKeyMakerFromSeed TK [1] 0)
        ⟨44, 0⟩ (bucketWithPriv [7]) identityDec).2.1 ++
      (deriveCoinTypeKey toyHD (deriveCoinTypeKey toyHD
          (newLocalKeyMakerFromSeed TK [1] 0) ⟨44, 0⟩ (bucketWithPriv [7])
          identityDec).1 ⟨44, 0⟩ emptyBucket
        failingDec).2.1).count Event.decryptCall = 1) :=
  ⟨(C7_cache_monotone_lazy_idempotent toyHD).1
     (newLocalKeyMaker TK (some (TK.master [9] 0))) ⟨44, 0⟩ 0 emptyBucket
     failingDec rfl,
   (C7_cache_monotone_lazy_idempotent toyHD).2.1
     (newLocalKeyMaker TK (some (TK.master [9] 0))) (TK.master [9] 0)
     ⟨44, 0⟩ emptyBucket failingDec rfl (by decide),
   (C7_cache_monotone_lazy_idempotent toyHD).2.2
     (newLocalKeyMakerFromSeed TK [1] 0) ⟨44, 0⟩ ⟨44, 0⟩
     (bucketWithPriv [7]) emptyBucket identityDec failingDec
     (TK.childOf (TK.childOf (TK.master [7] 0)
       (add32 44 hardenedKeyStart)) (add32 0 hardenedKeyStart))
     (TK.pubOf (TK.childOf (TK.childOf (TK.master [7] 0)
       (add32 44 hardenedKeyStart)) (add32 0 hardenedKeyStart)))
     rfl rfl (by decide)⟩
